import Mathlib

/-!
Verification development for the SOFA repository.

The repository consists of a Genkit flow file
(`src/ai/flows/extract-port-operation-events.ts`) declaring zod schemas for
the extraction input/output and a flow that forwards the model output, plus a
presentation-layer timeline-block merging step that the spec describes in
detail (§3–§4) but whose code is not part of the provided sources.

Part 1 embeds the zod schemas as parsers over a JSON value type, mirroring
zod semantics: `z.object` requires the listed fields, strips unknown keys,
`.optional()` allows absence, `z.string()` accepts exactly JSON strings,
`z.array` maps the element schema over a JSON array, and `z.tuple` requires
an array of the exact length.

Part 2 models the timeline-block builder from the spec (the code lives in
the presentation layer, outside the provided sources).
-/

/-- A JSON value.  Numbers are modelled as integers; no claim in this
development depends on non-integral numeric values. -/
inductive Json where
  | null : Json
  | bool (b : Bool) : Json
  | num (n : Int) : Json
  | str (s : String) : Json
  | arr (xs : List Json) : Json
  | obj (fields : List (String × Json)) : Json

/-- Look up the first binding of a key in a JSON object's field list. -/
def getField : List (String × Json) → String → Option Json
  | [], _ => none
  | (k, v) :: rest, key => if k = key then some v else getField rest key

/-- `z.string()`: accepts exactly JSON strings. -/
def asString : Json → Option String
  | .str s => some s
  | _ => none

/-- `z.boolean()`: accepts exactly JSON booleans. -/
def asBool : Json → Option Bool
  | .bool b => some b
  | _ => none

/-- `z.number()`: accepts JSON numbers. -/
def asInt : Json → Option Int
  | .num n => some n
  | _ => none

/-- `z.array(...)`: accepts JSON arrays. -/
def asArr : Json → Option (List Json)
  | .arr xs => some xs
  | _ => none

/-- A required `z.string()` field of a `z.object`. -/
def reqString (fields : List (String × Json)) (key : String) : Option String :=
  (getField fields key).bind asString

/-- A `z.string().optional()` field: absence is accepted, a present value
must be a string (`null` is rejected, matching zod's `.optional()`). -/
def optString (fields : List (String × Json)) (key : String) : Option (Option String) :=
  match getField fields key with
  | none => some none
  | some v => (asString v).map some

/-- The record type of `SubEventSchema` (and of the inline event object of
`ExtractPortOperationEventsOutputSchema.events`, which lists the same
fields). -/
structure SubEvent where
  event : String
  category : String
  startTime : String
  endTime : String
  duration : String
  status : String
  remark : Option String
deriving DecidableEq, Repr

/-- `SubEventSchema` from the source: six required string fields and an
optional `remark` string. -/
def SubEventSchema (j : Json) : Option SubEvent :=
  match j with
  | .obj fs => do
    let event ← reqString fs "event"
    let category ← reqString fs "category"
    let startTime ← reqString fs "startTime"
    let endTime ← reqString fs "endTime"
    let duration ← reqString fs "duration"
    let status ← reqString fs "status"
    let remark ← optString fs "remark"
    pure ⟨event, category, startTime, endTime, duration, status, remark⟩
  | _ => none

/-- The record type of `TimelineBlockSchema`. -/
structure TimelineBlock where
  name : String
  category : String
  time : Int × Int
  duration : String
  startTime : String
  endTime : String
  subEvents : List SubEvent
deriving DecidableEq, Repr

/-- `TimelineBlockSchema` from the source: strings, a two-number tuple
`time`, and an array of sub-events. -/
def TimelineBlockSchema (j : Json) : Option TimelineBlock :=
  match j with
  | .obj fs => do
    let name ← reqString fs "name"
    let category ← reqString fs "category"
    let time ← match getField fs "time" with
      | some (.arr [a, b]) => do
        let x ← asInt a
        let y ← asInt b
        pure (x, y)
      | _ => none
    let duration ← reqString fs "duration"
    let startTime ← reqString fs "startTime"
    let endTime ← reqString fs "endTime"
    let subEvents ← (getField fs "subEvents").bind asArr
    let subEvents ← subEvents.mapM SubEventSchema
    pure ⟨name, category, time, duration, startTime, endTime, subEvents⟩
  | _ => none

/-- The record type of the inline object of
`LaytimeCalculationSchema.laytimeEvents`. -/
structure LaytimeEvent where
  event : String
  startTime : String
  endTime : String
  duration : String
  isCounted : Bool
  reason : Option String
deriving DecidableEq, Repr

/-- The inline event schema of `LaytimeCalculationSchema.laytimeEvents`. -/
def LaytimeEventSchema (j : Json) : Option LaytimeEvent :=
  match j with
  | .obj fs => do
    let event ← reqString fs "event"
    let startTime ← reqString fs "startTime"
    let endTime ← reqString fs "endTime"
    let duration ← reqString fs "duration"
    let isCounted ← (getField fs "isCounted").bind asBool
    let reason ← optString fs "reason"
    pure ⟨event, startTime, endTime, duration, isCounted, reason⟩
  | _ => none

/-- The record type of `LaytimeCalculationSchema`. -/
structure LaytimeCalculation where
  totalLaytime : String
  allowedLaytime : String
  timeSaved : String
  demurrage : String
  demurrageCost : Option String
  laytimeEvents : List LaytimeEvent
deriving DecidableEq, Repr

/-- `LaytimeCalculationSchema` from the source. -/
def LaytimeCalculationSchema (j : Json) : Option LaytimeCalculation :=
  match j with
  | .obj fs => do
    let totalLaytime ← reqString fs "totalLaytime"
    let allowedLaytime ← reqString fs "allowedLaytime"
    let timeSaved ← reqString fs "timeSaved"
    let demurrage ← reqString fs "demurrage"
    let demurrageCost ← optString fs "demurrageCost"
    let laytimeEvents ← (getField fs "laytimeEvents").bind asArr
    let laytimeEvents ← laytimeEvents.mapM LaytimeEventSchema
    pure ⟨totalLaytime, allowedLaytime, timeSaved, demurrage, demurrageCost, laytimeEvents⟩
  | _ => none

/-- The record type of `ExtractPortOperationEventsOutputSchema`. -/
structure ExtractPortOperationEventsOutput where
  vesselName : String
  portOfCall : Option String
  berth : Option String
  cargoDescription : Option String
  cargoQuantity : Option String
  voyageNumber : Option String
  noticeOfReadinessTendered : Option String
  events : List SubEvent
  timelineBlocks : Option (List TimelineBlock)
  laytimeCalculation : Option LaytimeCalculation
  eventsSummary : Option String
deriving DecidableEq, Repr

/-- `ExtractPortOperationEventsOutputSchema` from the source: `vesselName`
and `events` are required; all other top-level fields are `.optional()`. -/
def ExtractPortOperationEventsOutputSchema (j : Json) :
    Option ExtractPortOperationEventsOutput :=
  match j with
  | .obj fs => do
    let vesselName ← reqString fs "vesselName"
    let portOfCall ← optString fs "portOfCall"
    let berth ← optString fs "berth"
    let cargoDescription ← optString fs "cargoDescription"
    let cargoQuantity ← optString fs "cargoQuantity"
    let voyageNumber ← optString fs "voyageNumber"
    let noticeOfReadinessTendered ← optString fs "noticeOfReadinessTendered"
    let events ← (getField fs "events").bind asArr
    let events ← events.mapM SubEventSchema
    let timelineBlocks ← match getField fs "timelineBlocks" with
      | none => pure none
      | some v => do
        let xs ← asArr v
        let bs ← xs.mapM TimelineBlockSchema
        pure (some bs)
    let laytimeCalculation ← match getField fs "laytimeCalculation" with
      | none => pure none
      | some v => (LaytimeCalculationSchema v).map some
    let eventsSummary ← optString fs "eventsSummary"
    pure ⟨vesselName, portOfCall, berth, cargoDescription, cargoQuantity,
      voyageNumber, noticeOfReadinessTendered, events, timelineBlocks,
      laytimeCalculation, eventsSummary⟩
  | _ => none

/-- The output schema of `extractPortOperationEventsPrompt`:
`ExtractPortOperationEventsOutputSchema.omit including timelineBlocks: true`.
A `timelineBlocks` key in the raw model output is an unknown key for this
schema and is stripped (zod default), so the parsed record always carries
`timelineBlocks := none`. -/
def extractPortOperationEventsPromptOutput (raw : Json) :
    Option ExtractPortOperationEventsOutput :=
  match raw with
  | .obj fs => do
    let vesselName ← reqString fs "vesselName"
    let portOfCall ← optString fs "portOfCall"
    let berth ← optString fs "berth"
    let cargoDescription ← optString fs "cargoDescription"
    let cargoQuantity ← optString fs "cargoQuantity"
    let voyageNumber ← optString fs "voyageNumber"
    let noticeOfReadinessTendered ← optString fs "noticeOfReadinessTendered"
    let events ← (getField fs "events").bind asArr
    let events ← events.mapM SubEventSchema
    let laytimeCalculation ← match getField fs "laytimeCalculation" with
      | none => pure none
      | some v => (LaytimeCalculationSchema v).map some
    let eventsSummary ← optString fs "eventsSummary"
    pure ⟨vesselName, portOfCall, berth, cargoDescription, cargoQuantity,
      voyageNumber, noticeOfReadinessTendered, events, none,
      laytimeCalculation, eventsSummary⟩
  | _ => none

/-- `extractPortOperationEventsFlow` from the source: it calls the prompt and
returns the validated model output unchanged ("we can return the output as
is"; timeline blocks are left to the frontend).  The external model call is
abstracted as the raw JSON the model produced. -/
def extractPortOperationEventsFlow (raw : Json) :
    Option ExtractPortOperationEventsOutput :=
  extractPortOperationEventsPromptOutput raw

namespace Builder

/-- Modelled from the spec: the presentation-layer `PortEvent` input unit of
the TimelineBlockBuilder (spec §3); the builder's code is not among the
provided sources.  `startTime` and `endTime` are timestamps with minute
precision, modelled as minute counts. -/
structure PortEvent where
  event : String
  category : String
  startTime : Nat
  endTime : Nat
  duration : String
  status : String
  remark : Option String
deriving DecidableEq, Repr

/-- Modelled from the spec: `TimelineBlock` output unit (spec §3), with the
block interval `blockStart`/`blockEnd` in minutes. -/
structure TimelineBlock where
  name : String
  category : String
  blockStart : Nat
  blockEnd : Nat
  duration : String
  subEvents : List PortEvent
deriving DecidableEq, Repr

/-- Modelled from the spec: the error raised when an input event has
`endTime < startTime` (spec §7). -/
structure InvalidIntervalError where
  offending : PortEvent
deriving DecidableEq, Repr

/-- Modelled from the spec: human-readable rendering of a duration given in
minutes (spec §3, `duration` fields). -/
def renderDuration (m : Nat) : String :=
  toString (m / 60) ++ "h " ++ toString (m % 60) ++ "m"

/-- Modelled from the spec: finalize the current block accumulator into a
`TimelineBlock` (spec §3 derivation rules: block category and name follow
the earliest-starting contained event; interval is the accumulated
`[blockStart, blockEnd]`). -/
def finalizeBlock (first : PortEvent) (bStart bEnd : Nat) (subs : List PortEvent) :
    TimelineBlock :=
  { name := first.category
    category := first.category
    blockStart := bStart
    blockEnd := bEnd
    duration := renderDuration (bEnd - bStart)
    subEvents := subs }

/-- Modelled from the spec: the single-pass merge loop of
`buildTimelineBlocks` (spec §4.1 step 3): a subsequent event `e` with
`e.startTime <= blockEnd` (inclusive boundary) extends the accumulator with
`blockEnd = max blockEnd e.endTime` and is appended to `subEvents`;
otherwise the accumulator is finalized and a new one is seeded from `e`.
An event with `endTime < startTime` raises `InvalidIntervalError`
immediately. -/
def mergeLoop : PortEvent → Nat → Nat → List PortEvent → List PortEvent →
    Except InvalidIntervalError (List TimelineBlock)
  | first, bStart, bEnd, subs, [] => .ok [finalizeBlock first bStart bEnd subs]
  | first, bStart, bEnd, subs, e :: rest =>
    if e.endTime < e.startTime then
      .error ⟨e⟩
    else if e.startTime ≤ bEnd then
      mergeLoop first bStart (max bEnd e.endTime) (subs ++ [e]) rest
    else
      match mergeLoop e e.startTime e.endTime [e] rest with
      | .error err => .error err
      | .ok tail => .ok (finalizeBlock first bStart bEnd subs :: tail)

/-- Modelled from the spec: `buildTimelineBlocks` (spec §4.1): empty input
yields an empty sequence; otherwise the accumulator is seeded with the first
event and the merge loop runs over the rest.  A malformed event
(`endTime < startTime`) fails with `InvalidIntervalError`. -/
def buildTimelineBlocks : List PortEvent →
    Except InvalidIntervalError (List TimelineBlock)
  | [] => .ok []
  | e :: rest =>
    if e.endTime < e.startTime then
      .error ⟨e⟩
    else
      mergeLoop e e.startTime e.endTime [e] rest

end Builder

namespace Builder

/-- The precondition of §4.1: events sorted ascending by `startTime` (ties
allowed) and every event with `endTime >= startTime`. -/
abbrev SortedByStart (events : List PortEvent) : Prop :=
  List.Chain' (fun a b => a.startTime ≤ b.startTime) events

/-- Example event A of spec §8, 10:00–11:00 in minutes. -/
def exA : PortEvent :=
  ⟨"A", "CargoOperations", 600, 660, "1h 0m", "Completed", none⟩

/-- Example event B of spec §8, 10:30–12:00 in minutes. -/
def exB : PortEvent :=
  ⟨"B", "Delays", 630, 720, "1h 30m", "Delayed", none⟩

/-- Example event C of spec §8, 13:00–13:00 (point-in-time) in minutes. -/
def exC : PortEvent :=
  ⟨"C", "Departure", 780, 780, "0h 0m", "Completed", none⟩

/-- Back-to-back example event A of spec §8, 09:00–10:00 in minutes. -/
def evA0900 : PortEvent :=
  ⟨"A", "CargoOperations", 540, 600, "1h 0m", "Completed", none⟩

/-- Back-to-back example event B of spec §8, 10:00–10:30 in minutes. -/
def evB1000 : PortEvent :=
  ⟨"B", "CargoOperations", 600, 630, "0h 30m", "Completed", none⟩

/-- A malformed event with `endTime < startTime`. -/
def badEvent : PortEvent :=
  ⟨"Bad", "Other", 700, 640, "0m", "Completed", none⟩

/-- First block of the spec §8 example run. -/
def exBlock1 : TimelineBlock :=
  ⟨"CargoOperations", "CargoOperations", 600, 720, "2h 0m", [exA, exB]⟩

/-- Second block of the spec §8 example run. -/
def exBlock2 : TimelineBlock :=
  ⟨"Departure", "Departure", 780, 780, "0h 0m", [exC]⟩

end Builder

/-- The eight category values enumerated by the spec's data model. -/
def allowedCategories : List String :=
  ["Arrival", "CargoOperations", "Departure", "Delays", "Stoppages",
   "Bunkering", "Anchorage", "Other"]

/-- An event record whose `category` is "Banana", a string outside the
spec's enumeration. -/
def bananaEventJson : Json :=
  .obj [("event", .str "Crane moved"),
        ("category", .str "Banana"),
        ("startTime", .str "2024-01-01 10:00"),
        ("endTime", .str "2024-01-01 11:00"),
        ("duration", .str "1h 0m"),
        ("status", .str "Completed")]

/-- The parse of `bananaEventJson`. -/
def bananaEvent : SubEvent :=
  ⟨"Crane moved", "Banana", "2024-01-01 10:00", "2024-01-01 11:00",
   "1h 0m", "Completed", none⟩

/-- A full extraction output carrying the "Banana" event. -/
def bananaOutputJson : Json :=
  .obj [("vesselName", .str "MV Test"),
        ("events", .arr [bananaEventJson])]

/-- The parse of `bananaOutputJson`. -/
def bananaOutput : ExtractPortOperationEventsOutput :=
  ⟨"MV Test", none, none, none, none, none, none, [bananaEvent], none, none, none⟩

/-- An event record as JSON with an arbitrary category string. -/
def eventJsonWithCategory (c : String) : Json :=
  .obj [("event", .str "E"),
        ("category", .str c),
        ("startTime", .str "2024-01-01 10:00"),
        ("endTime", .str "2024-01-01 11:00"),
        ("duration", .str "1h 0m"),
        ("status", .str "Completed")]

/-- A raw model output with a vessel name and an empty events array. -/
def emptyEventsJson : Json :=
  .obj [("vesselName", .str "MV Test"),
        ("events", .arr [])]

/-- The parse of `emptyEventsJson`. -/
def emptyEventsOutput : ExtractPortOperationEventsOutput :=
  ⟨"MV Test", none, none, none, none, none, none, [], none, none, none⟩

/-- A raw model output missing `vesselName`. -/
def noVesselJson : Json :=
  .obj [("events", .arr [bananaEventJson])]

/-- A raw model output missing `events`. -/
def noEventsJson : Json :=
  .obj [("vesselName", .str "MV Test")]

/-- A well-formed event record as JSON. -/
def okEventJson : Json :=
  .obj [("event", .str "Pilot Attended On Board"),
        ("category", .str "Arrival"),
        ("startTime", .str "2024-01-01 08:00"),
        ("endTime", .str "2024-01-01 08:30"),
        ("duration", .str "0h 30m"),
        ("status", .str "Completed")]

/-- The parse of `okEventJson`. -/
def okEvent : SubEvent :=
  ⟨"Pilot Attended On Board", "Arrival", "2024-01-01 08:00",
   "2024-01-01 08:30", "0h 30m", "Completed", none⟩

/-- A minimal raw model output: only the two mandatory fields. -/
def minimalOutputJson : Json :=
  .obj [("vesselName", .str "MV Aurora"),
        ("events", .arr [okEventJson])]

/-- The parse of `minimalOutputJson`. -/
def minimalOutput : ExtractPortOperationEventsOutput :=
  ⟨"MV Aurora", none, none, none, none, none, none, [okEvent], none, none, none⟩

namespace Builder

lemma mergeLoop_nil (first : PortEvent) (bStart bEnd : Nat) (subs : List PortEvent) :
    mergeLoop first bStart bEnd subs [] = .ok [finalizeBlock first bStart bEnd subs] :=
  rfl

lemma mergeLoop_cons_bad (first : PortEvent) (bStart bEnd : Nat)
    (subs : List PortEvent) (e : PortEvent) (rest : List PortEvent)
    (hbad : e.endTime < e.startTime) :
    mergeLoop first bStart bEnd subs (e :: rest) = .error ⟨e⟩ := by
  simp only [mergeLoop]
  rw [if_pos hbad]

lemma mergeLoop_cons_merge (first : PortEvent) (bStart bEnd : Nat)
    (subs : List PortEvent) (e : PortEvent) (rest : List PortEvent)
    (he : e.startTime ≤ e.endTime) (hm : e.startTime ≤ bEnd) :
    mergeLoop first bStart bEnd subs (e :: rest) =
      mergeLoop first bStart (max bEnd e.endTime) (subs ++ [e]) rest := by
  simp only [mergeLoop]
  rw [if_neg (Nat.not_lt.mpr he), if_pos hm]

lemma mergeLoop_cons_split (first : PortEvent) (bStart bEnd : Nat)
    (subs : List PortEvent) (e : PortEvent) (rest : List PortEvent)
    (tail : List TimelineBlock)
    (he : e.startTime ≤ e.endTime) (hs : ¬ e.startTime ≤ bEnd)
    (hok : mergeLoop e e.startTime e.endTime [e] rest = .ok tail) :
    mergeLoop first bStart bEnd subs (e :: rest) =
      .ok (finalizeBlock first bStart bEnd subs :: tail) := by
  simp only [mergeLoop]
  rw [if_neg (Nat.not_lt.mpr he), if_neg hs, hok]

lemma mergeLoop_cons_split_err (first : PortEvent) (bStart bEnd : Nat)
    (subs : List PortEvent) (e : PortEvent) (rest : List PortEvent)
    (err : InvalidIntervalError)
    (he : e.startTime ≤ e.endTime) (hs : ¬ e.startTime ≤ bEnd)
    (herr : mergeLoop e e.startTime e.endTime [e] rest = .error err) :
    mergeLoop first bStart bEnd subs (e :: rest) = .error err := by
  simp only [mergeLoop]
  rw [if_neg (Nat.not_lt.mpr he), if_neg hs, herr]

/-- Main invariant of the merge loop: on a valid remainder it succeeds, the
sub-events of the produced blocks concatenate to the accumulated sub-events
followed by the remainder, the head block keeps the accumulator's
`blockStart` and only grows its `blockEnd`, adjacent blocks are separated by
a strict gap, and every block has `blockStart ≤ blockEnd`. -/
lemma mergeLoop_spec (rest : List PortEvent) :
    ∀ (first : PortEvent) (bStart bEnd : Nat) (subs : List PortEvent),
    (∀ e ∈ rest, e.startTime ≤ e.endTime) → bStart ≤ bEnd →
    ∃ b0 tail,
      mergeLoop first bStart bEnd subs rest = .ok (b0 :: tail) ∧
      ((b0 :: tail).map TimelineBlock.subEvents).flatten = subs ++ rest ∧
      b0.blockStart = bStart ∧ bEnd ≤ b0.blockEnd ∧
      List.Chain' (fun a b => a.blockEnd < b.blockStart) (b0 :: tail) ∧
      ∀ b ∈ b0 :: tail, b.blockStart ≤ b.blockEnd := by
  induction rest with
  | nil =>
    intro first bStart bEnd subs _ hb
    refine ⟨finalizeBlock first bStart bEnd subs, [], rfl, by simp [finalizeBlock], rfl, le_refl _, ?_, ?_⟩
    · simp
    · intro b hbmem
      simp only [List.mem_singleton] at hbmem
      subst hbmem
      exact hb
  | cons e rest ih =>
    intro first bStart bEnd subs hvalid hb
    have he : e.startTime ≤ e.endTime := hvalid e (List.mem_cons_self e rest)
    have hvalid' : ∀ x ∈ rest, x.startTime ≤ x.endTime :=
      fun x hx => hvalid x (List.mem_cons_of_mem e hx)
    by_cases hm : e.startTime ≤ bEnd
    · obtain ⟨b0, tail, hok, hflat, hstart, hend, hchain, hall⟩ :=
        ih first bStart (max bEnd e.endTime) (subs ++ [e]) hvalid'
          (le_trans hb (le_max_left _ _))
      refine ⟨b0, tail, ?_, ?_, hstart, le_trans (le_max_left _ _) hend, hchain, hall⟩
      · rw [mergeLoop_cons_merge first bStart bEnd subs e rest he hm]
        exact hok
      · rw [hflat, List.append_assoc]
        simp
    · obtain ⟨b0', tail', hok', hflat', hstart', hend', hchain', hall'⟩ :=
        ih e e.startTime e.endTime [e] hvalid' he
      refine ⟨finalizeBlock first bStart bEnd subs, b0' :: tail', ?_, ?_, rfl, le_refl _, ?_, ?_⟩
      · exact mergeLoop_cons_split first bStart bEnd subs e rest _ he hm hok'
      · simp only [List.map_cons, List.flatten_cons] at hflat' ⊢
        rw [hflat']
        simp [finalizeBlock]
      · rw [List.chain'_cons]
        refine ⟨?_, hchain'⟩
        rw [hstart']
        exact Nat.lt_of_not_le hm
      · intro b hbmem
        rcases List.mem_cons.mp hbmem with hb0 | htl
        · subst hb0
          exact hb
        · exact hall' b htl

end Builder

namespace Builder



/-- Success of the builder on valid input, with the partition and ordering
facts bundled; shared backbone of the claims below. -/
lemma buildTimelineBlocks_spec (events : List PortEvent)
    (hvalid : ∀ e ∈ events, e.startTime ≤ e.endTime) :
    ∃ bs, buildTimelineBlocks events = .ok bs ∧
      (bs.map TimelineBlock.subEvents).flatten = events ∧
      List.Chain' (fun a b => a.blockEnd < b.blockStart) bs ∧
      ∀ b ∈ bs, b.blockStart ≤ b.blockEnd := by
  cases events with
  | nil => exact ⟨[], rfl, rfl, List.chain'_nil, by intro b hb; cases hb⟩
  | cons e rest =>
    have he : e.startTime ≤ e.endTime := hvalid e (List.mem_cons_self e rest)
    have hvalid' : ∀ x ∈ rest, x.startTime ≤ x.endTime :=
      fun x hx => hvalid x (List.mem_cons_of_mem e hx)
    obtain ⟨b0, tail, hok, hflat, _, _, hchain, hall⟩ :=
      mergeLoop_spec rest e e.startTime e.endTime [e] hvalid' he
    refine ⟨b0 :: tail, ?_, ?_, hchain, hall⟩
    · show buildTimelineBlocks (e :: rest) = .ok (b0 :: tail)
      simp only [buildTimelineBlocks]
      rw [if_neg (Nat.not_lt.mpr he)]
      exact hok
    · rw [hflat]
      rfl

/-- A strict-gap chain of blocks with `blockStart ≤ blockEnd` inside each
block is strictly ascending by `blockStart`. -/
lemma chain_blockStart_of_gap (bs : List TimelineBlock)
    (hchain : List.Chain' (fun a b => a.blockEnd < b.blockStart) bs)
    (hall : ∀ b ∈ bs, b.blockStart ≤ b.blockEnd) :
    List.Chain' (fun a b => a.blockStart < b.blockStart) bs := by
  induction bs with
  | nil => exact List.chain'_nil
  | cons b bs ih =>
    cases bs with
    | nil => exact List.chain'_singleton b
    | cons b' bs' =>
      rw [List.chain'_cons] at hchain ⊢
      refine ⟨?_, ih hchain.2 (fun x hx => hall x (List.mem_cons_of_mem b hx))⟩
      exact Nat.lt_of_le_of_lt (hall b (List.mem_cons_self b _)) hchain.1

end Builder

namespace Builder

/-- A malformed event (`endTime < startTime`) anywhere in the remainder
makes the merge loop fail. -/
lemma mergeLoop_error (rest : List PortEvent) :
    ∀ (first : PortEvent) (bStart bEnd : Nat) (subs : List PortEvent),
    (∃ x ∈ rest, x.endTime < x.startTime) →
    ∃ err, mergeLoop first bStart bEnd subs rest = .error err := by
  induction rest with
  | nil =>
    intro first bStart bEnd subs h
    obtain ⟨x, hx, -⟩ := h
    cases hx
  | cons e rest ih =>
    intro first bStart bEnd subs h
    by_cases hbad : e.endTime < e.startTime
    · exact ⟨⟨e⟩, mergeLoop_cons_bad first bStart bEnd subs e rest hbad⟩
    · have he : e.startTime ≤ e.endTime := Nat.not_lt.mp hbad
      have hrest : ∃ x ∈ rest, x.endTime < x.startTime := by
        obtain ⟨x, hx, hxbad⟩ := h
        rcases List.mem_cons.mp hx with hxe | hxr
        · subst hxe; exact absurd hxbad hbad
        · exact ⟨x, hxr, hxbad⟩
      by_cases hm : e.startTime ≤ bEnd
      · rw [mergeLoop_cons_merge first bStart bEnd subs e rest he hm]
        exact ih first bStart (max bEnd e.endTime) (subs ++ [e]) hrest
      · obtain ⟨err, herr⟩ := ih e e.startTime e.endTime [e] hrest
        exact ⟨err, mergeLoop_cons_split_err first bStart bEnd subs e rest err he hm herr⟩



end Builder

namespace Builder

/-- C1: on any input sorted ascending by `startTime` whose events all have
`endTime >= startTime`, `buildTimelineBlocks` succeeds and the concatenation
of the `subEvents` of the returned blocks, in order, is exactly the input
sequence: every input event lands in exactly one block, none dropped, none
duplicated. -/
theorem buildTimelineBlocks_partition (events : List PortEvent)
    (_hsorted : SortedByStart events)
    (hvalid : ∀ e ∈ events, e.startTime ≤ e.endTime) :
    ∃ bs, buildTimelineBlocks events = .ok bs ∧
      (bs.map TimelineBlock.subEvents).flatten = events := by
  obtain ⟨bs, hok, hflat, -, -⟩ := buildTimelineBlocks_spec events hvalid
  exact ⟨bs, hok, hflat⟩

theorem buildTimelineBlocks_partition_witness :
    ∃ bs, buildTimelineBlocks [exA, exB, exC] = .ok bs ∧
      (bs.map TimelineBlock.subEvents).flatten = [exA, exB, exC] :=
  buildTimelineBlocks_partition [exA, exB, exC]
    (List.Chain.cons (by decide) (List.Chain.cons (by decide) List.Chain.nil))
    (by decide)

/-- C2: on any input satisfying the preconditions, the returned blocks are
pairwise separated (`blockEnd` of one strictly below `blockStart` of the
next, so no merge opportunity remains) and strictly ascending by
`blockStart`. -/
theorem buildTimelineBlocks_sorted_nonoverlapping (events : List PortEvent)
    (_hsorted : SortedByStart events)
    (hvalid : ∀ e ∈ events, e.startTime ≤ e.endTime) :
    ∃ bs, buildTimelineBlocks events = .ok bs ∧
      List.Chain' (fun a b => a.blockEnd < b.blockStart) bs ∧
      List.Chain' (fun a b => a.blockStart < b.blockStart) bs := by
  obtain ⟨bs, hok, -, hchain, hall⟩ := buildTimelineBlocks_spec events hvalid
  exact ⟨bs, hok, hchain, chain_blockStart_of_gap bs hchain hall⟩

theorem buildTimelineBlocks_sorted_nonoverlapping_witness :
    ∃ bs, buildTimelineBlocks [exA, exB, exC] = .ok bs ∧
      List.Chain' (fun a b => a.blockEnd < b.blockStart) bs ∧
      List.Chain' (fun a b => a.blockStart < b.blockStart) bs :=
  buildTimelineBlocks_sorted_nonoverlapping [exA, exB, exC]
    (List.Chain.cons (by decide) (List.Chain.cons (by decide) List.Chain.nil))
    (by decide)

/-- C4: the merge boundary is inclusive: a valid event `e` with
`e.startTime ≤ blockEnd` (equality included) is merged into the current
accumulator, extending it to `max blockEnd e.endTime` and appending `e` to
its sub-events; and the back-to-back example 09:00–10:00 / 10:00–10:30
yields the single block 09:00–10:30 containing both events. -/
theorem mergeLoop_inclusive_boundary (first : PortEvent) (bStart bEnd : Nat)
    (subs : List PortEvent) (e : PortEvent) (rest : List PortEvent)
    (he : e.startTime ≤ e.endTime) (hm : e.startTime ≤ bEnd) :
    mergeLoop first bStart bEnd subs (e :: rest) =
      mergeLoop first bStart (max bEnd e.endTime) (subs ++ [e]) rest ∧
    buildTimelineBlocks [evA0900, evB1000] =
      .ok [⟨"CargoOperations", "CargoOperations", 540, 630, "1h 30m",
            [evA0900, evB1000]⟩] := by
  exact ⟨mergeLoop_cons_merge first bStart bEnd subs e rest he hm, rfl⟩

theorem mergeLoop_inclusive_boundary_witness :
    mergeLoop evA0900 540 600 [evA0900] [evB1000] =
      mergeLoop evA0900 540 (max 600 evB1000.endTime) ([evA0900] ++ [evB1000]) [] ∧
    buildTimelineBlocks [evA0900, evB1000] =
      .ok [⟨"CargoOperations", "CargoOperations", 540, 630, "1h 30m",
            [evA0900, evB1000]⟩] :=
  mergeLoop_inclusive_boundary evA0900 540 600 [evA0900] evB1000 []
    (by decide) (by decide)

/-- C5: any input containing some event with `endTime < startTime` makes
`buildTimelineBlocks` fail with an `InvalidIntervalError` instead of
returning a result. -/
theorem buildTimelineBlocks_invalid_interval (events : List PortEvent)
    (h : ∃ e ∈ events, e.endTime < e.startTime) :
    ∃ err : InvalidIntervalError, buildTimelineBlocks events = .error err := by
  cases events with
  | nil =>
    obtain ⟨e, he, -⟩ := h
    cases he
  | cons e rest =>
    by_cases hbad : e.endTime < e.startTime
    · refine ⟨⟨e⟩, ?_⟩
      simp only [buildTimelineBlocks]
      rw [if_pos hbad]
    · have he : e.startTime ≤ e.endTime := Nat.not_lt.mp hbad
      have hrest : ∃ x ∈ rest, x.endTime < x.startTime := by
        obtain ⟨x, hx, hxbad⟩ := h
        rcases List.mem_cons.mp hx with hxe | hxr
        · subst hxe; exact absurd hxbad hbad
        · exact ⟨x, hxr, hxbad⟩
      obtain ⟨err, herr⟩ := mergeLoop_error rest e e.startTime e.endTime [e] hrest
      refine ⟨err, ?_⟩
      simp only [buildTimelineBlocks]
      rw [if_neg (Nat.not_lt.mpr he)]
      exact herr

theorem buildTimelineBlocks_invalid_interval_witness :
    ∃ err : InvalidIntervalError,
      buildTimelineBlocks [exA, badEvent] = .error err :=
  buildTimelineBlocks_invalid_interval [exA, badEvent]
    ⟨badEvent, by decide, by decide⟩

/-- C8: the empty input is a valid no-op: `buildTimelineBlocks []` returns
the empty block sequence and no error. -/
theorem buildTimelineBlocks_empty :
    buildTimelineBlocks [] = .ok [] :=
  rfl

/-- C9: re-merging is idempotent: flattening the `subEvents` of the blocks
produced from a valid input and feeding them back through the builder
succeeds and reproduces the same block boundaries (`blockStart`, `blockEnd`)
as the first pass. -/
theorem buildTimelineBlocks_idempotent (events : List PortEvent)
    (_hsorted : SortedByStart events)
    (hvalid : ∀ e ∈ events, e.startTime ≤ e.endTime)
    (bs : List TimelineBlock)
    (h : buildTimelineBlocks events = .ok bs) :
    ∃ bs', buildTimelineBlocks ((bs.map TimelineBlock.subEvents).flatten) = .ok bs' ∧
      bs'.map (fun b => (b.blockStart, b.blockEnd)) =
        bs.map (fun b => (b.blockStart, b.blockEnd)) := by
  obtain ⟨bs0, hok0, hflat0, -, -⟩ := buildTimelineBlocks_spec events hvalid
  rw [h] at hok0
  obtain rfl : bs = bs0 := (Except.ok.injEq _ _).mp hok0
  exact ⟨bs, by rw [hflat0]; exact h, rfl⟩

theorem buildTimelineBlocks_idempotent_witness :
    ∃ bs', buildTimelineBlocks
        (([exBlock1, exBlock2].map TimelineBlock.subEvents).flatten) = .ok bs' ∧
      bs'.map (fun b => (b.blockStart, b.blockEnd)) =
        [exBlock1, exBlock2].map (fun b => (b.blockStart, b.blockEnd)) :=
  buildTimelineBlocks_idempotent [exA, exB, exC]
    (List.Chain.cons (by decide) (List.Chain.cons (by decide) List.Chain.nil))
    (by decide) [exBlock1, exBlock2] rfl

end Builder



/-- C3 counterexample: the schemas declare `category` as `z.string()`, so an
event whose `category` is "Banana" — not among the eight enumerated values —
is accepted by `SubEventSchema` and by the full output schema; the claim
that such a record is not a valid PortEvent is false. -/
theorem subEventSchema_category_free_counterexample :
    SubEventSchema bananaEventJson = some bananaEvent ∧
    bananaEvent.category = "Banana" ∧
    "Banana" ∉ allowedCategories ∧
    ExtractPortOperationEventsOutputSchema bananaOutputJson = some bananaOutput := by
  refine ⟨rfl, rfl, by decide, rfl⟩



/-- C3 amended: `category` is validated only as a string; `SubEventSchema`
accepts every category string whatsoever — the eight-value enumeration lives
only in the schema description and prompt text, not in validation. -/
theorem subEventSchema_accepts_any_category (c : String) :
    SubEventSchema (eventJsonWithCategory c) =
      some ⟨"E", c, "2024-01-01 10:00", "2024-01-01 11:00",
            "1h 0m", "Completed", none⟩ :=
  rfl



/-- C6 counterexample: the output schema validates `events` with plain
`z.array(...)`, which accepts the empty array, so
`extractPortOperationEvents` can successfully return an output whose
events array is empty — the claim that every successfully returned output
has a non-empty events array is false. -/
theorem extractFlow_accepts_empty_events_counterexample :
    extractPortOperationEventsFlow emptyEventsJson = some emptyEventsOutput ∧
    emptyEventsOutput.events = [] :=
  ⟨rfl, rfl⟩



/-- C6 amended: schema validation makes `vesselName` and the `events` field
mandatory — a model output missing either fails the whole request — but it
does not require `events` to be non-empty: an output with an empty events
array is returned successfully (non-emptiness is requested only in the
prompt text, not enforced by the schema). -/
theorem extractFlow_requires_vesselName_and_events :
    extractPortOperationEventsFlow noVesselJson = none ∧
    extractPortOperationEventsFlow noEventsJson = none ∧
    extractPortOperationEventsFlow emptyEventsJson = some emptyEventsOutput :=
  ⟨rfl, rfl, rfl⟩

/-- Every record produced by the prompt's output schema (which omits
`timelineBlocks`) carries `timelineBlocks = none`. -/
lemma promptOutput_timelineBlocks_none (raw : Json)
    (out : ExtractPortOperationEventsOutput)
    (h : extractPortOperationEventsPromptOutput raw = some out) :
    out.timelineBlocks = none := by
  cases raw with
  | obj fs =>
    simp only [extractPortOperationEventsPromptOutput, bind, Option.bind_eq_some,
      pure, Option.some.injEq] at h
    obtain ⟨v1, h1, v2, h2, v3, h3, v4, h4, v5, h5, v6, h6, v7, h7, v8, h8,
      v9, h9, hrest⟩ := h
    cases hml : getField fs "laytimeCalculation" with
    | none =>
      rw [hml] at hrest
      simp only [Option.some_bind, Option.bind_eq_some, Option.some.injEq] at hrest
      obtain ⟨b, hb, hout⟩ := hrest
      subst hout
      rfl
    | some v =>
      rw [hml] at hrest
      simp only [Option.some_bind, Option.bind_eq_some, Option.some.injEq] at hrest
      obtain ⟨a, ha, b, hb, hout⟩ := hrest
      subst hout
      rfl
  | null => exact Option.noConfusion h
  | bool b => exact Option.noConfusion h
  | num n => exact Option.noConfusion h
  | str s => exact Option.noConfusion h
  | arr xs => exact Option.noConfusion h



/-- C7: the flow returns the prompt's validated output unchanged, and the
prompt's output schema omits `timelineBlocks`, so no successful result of
`extractPortOperationEventsFlow` ever carries timeline blocks — their
construction is deferred entirely to the presentation layer. -/
theorem extractFlow_no_timelineBlocks (raw : Json) :
    extractPortOperationEventsFlow raw = extractPortOperationEventsPromptOutput raw ∧
    ∀ out, extractPortOperationEventsFlow raw = some out → out.timelineBlocks = none :=
  ⟨rfl, fun out hout => promptOutput_timelineBlocks_none raw out hout⟩

theorem extractFlow_no_timelineBlocks_witness :
    extractPortOperationEventsFlow minimalOutputJson =
      extractPortOperationEventsPromptOutput minimalOutputJson ∧
    minimalOutput.timelineBlocks = none :=
  ⟨(extractFlow_no_timelineBlocks minimalOutputJson).1,
   (extractFlow_no_timelineBlocks minimalOutputJson).2 minimalOutput rfl⟩

/-- C10: at the top level only `vesselName` and `events` are mandatory: the
minimal record (whose single event carries exactly the six required strings)
validates, with every optional field absent, while dropping `vesselName` or
`events` makes validation fail. -/
theorem outputSchema_minimal_record_validates :
    ExtractPortOperationEventsOutputSchema minimalOutputJson = some minimalOutput ∧
    minimalOutput.portOfCall = none ∧
    minimalOutput.berth = none ∧
    minimalOutput.cargoDescription = none ∧
    minimalOutput.cargoQuantity = none ∧
    minimalOutput.voyageNumber = none ∧
    minimalOutput.noticeOfReadinessTendered = none ∧
    minimalOutput.timelineBlocks = none ∧
    minimalOutput.laytimeCalculation = none ∧
    minimalOutput.eventsSummary = none ∧
    (minimalOutput.events.map SubEvent.remark) = [none] ∧
    ExtractPortOperationEventsOutputSchema (.obj [("events", .arr [okEventJson])]) = none ∧
    ExtractPortOperationEventsOutputSchema (.obj [("vesselName", .str "MV Aurora")]) = none :=
  ⟨rfl, rfl, rfl, rfl, rfl, rfl, rfl, rfl, rfl, rfl, rfl, rfl, rfl⟩
